import Mathlib

/-!
Verification of the yupress request-binding and response-encoding layer
(src/lib/yupress.ts) against its specification.

The TypeScript source is shallowly embedded: JavaScript runtime values are
modelled by the inductive type `JsValue`; the express response object is
modelled by the trace of operations performed on it (`ResOp`); a thrown
JavaScript value is modelled by the `Except` error channel.  Yup schemata
are external to the repository, so a `Schema` is an abstract pair of a
`validate` function and a `cast` function; the concrete `objectSchema`
instance is modelled from the specification of the Schema Adapter
(validate fails on missing required fields; cast drops undeclared fields).
-/

set_option autoImplicit false

/-- A JavaScript runtime value: undefined, null, booleans, (integer) numbers,
strings, and objects as association lists of fields in insertion order. -/
inductive JsValue where
  | vUndefined
  | vNull
  | vBool (b : Bool)
  | vNum (n : Int)
  | vStr (s : String)
  | vObj (fields : List (String × JsValue))

/-- First-match association-list lookup, the model of JavaScript property
lookup on an object (an object literal never has duplicate keys). -/
def assocLookup {α : Type} : List (String × α) → String → Option α
  | [], _ => none
  | (k, v) :: rest, s => if k = s then some v else assocLookup rest s

/-- Total property access in the style of lodash `get`: reading a property
of a non-object yields undefined rather than throwing. Used to model
`get(results, "type")` in `isYxpResults`. -/
def jsGet (v : JsValue) (key : String) : JsValue :=
  match v with
  | .vObj fs => (assocLookup fs key).getD .vUndefined
  | _ => .vUndefined

/-- Plain JavaScript property access `v.key`: throws a TypeError when the
base is undefined or null, otherwise reads the field (undefined when
absent; property reads on primitives yield undefined for our keys). -/
def jsAccess (v : JsValue) (key : String) : Except String JsValue :=
  match v with
  | .vUndefined => .error ("TypeError: cannot read " ++ key)
  | .vNull => .error ("TypeError: cannot read " ++ key)
  | .vObj fs => .ok ((assocLookup fs key).getD .vUndefined)
  | _ => .ok .vUndefined

/-- JavaScript truthiness: undefined, null, false, 0 and the empty string
are falsy; every object is truthy. -/
def jsTruthy (v : JsValue) : Bool :=
  match v with
  | .vUndefined => false
  | .vNull => false
  | .vBool b => b
  | .vNum n => if n = 0 then false else true
  | .vStr s => if s = "" then false else true
  | .vObj _ => true

/-- The JavaScript short-circuit disjunction `a || b`. -/
def jsOr (a b : JsValue) : JsValue :=
  if jsTruthy a then a else b

/-- Own enumerable entries of an object in insertion order, the model of
lodash `forOwn` iteration; non-objects contribute no entries. -/
def objEntries (v : JsValue) : List (String × JsValue) :=
  match v with
  | .vObj fs => fs
  | _ => []

/-- The field names of an object value. -/
def objFields (v : JsValue) : List String :=
  (objEntries v).map Prod.fst

def jsonEscapeChar (c : Char) : String :=
  if c = '"' then "\\\"" else if c = '\\' then "\\\\" else String.singleton c

def jsonEscape (s : String) : String :=
  String.join (s.toList.map jsonEscapeChar)

mutual
/-- JSON text of a defined value, as produced by `JSON.stringify`. -/
def jsonEncode : JsValue → String
  | .vUndefined => "null"
  | .vNull => "null"
  | .vBool b => if b then "true" else "false"
  | .vNum n => toString n
  | .vStr s => "\"" ++ jsonEscape s ++ "\""
  | .vObj fs => "\x7b" ++ String.intercalate "," (jsonEncodeFields fs) ++ "\x7d"

/-- `JSON.stringify` drops object fields whose value is undefined. -/
def jsonEncodeFields : List (String × JsValue) → List String
  | [] => []
  | (k, v) :: rest =>
    match v with
    | .vUndefined => jsonEncodeFields rest
    | w => ("\"" ++ jsonEscape k ++ "\":" ++ jsonEncode w) :: jsonEncodeFields rest
end

/-- `JSON.stringify`: undefined at the top level stringifies to the value
undefined itself (not a string); anything else to its JSON text. -/
def jsonStringify (v : JsValue) : JsValue :=
  match v with
  | .vUndefined => .vUndefined
  | w => .vStr (jsonEncode w)

/-- The body text express actually transmits for a value passed to
`res.send`: strings verbatim, undefined as the empty body. -/
def renderBody (v : JsValue) : String :=
  match v with
  | .vUndefined => ""
  | .vStr s => s
  | w => jsonEncode w

/-- The object built by `yxpError(statusCode, body = "")`. -/
def yxpError (statusCode : Int) (body : String := "") : JsValue :=
  .vObj [("type", .vStr "YxpError"), ("statusCode", .vNum statusCode), ("body", .vStr body)]

/-- The object built by `yxpSuccess(body, statusCode = OK, options = {})`. -/
def yxpSuccess (body : JsValue) (statusCode : Int := 200) (options : JsValue := .vObj []) : JsValue :=
  .vObj [("type", .vStr "YxpSuccess"), ("body", body), ("statusCode", .vNum statusCode), ("options", options)]

/-- `paramError(message)` = `yxpError(BAD_REQUEST, message)`. -/
def paramError (message : String) : JsValue :=
  yxpError 400 message

/-- `text(results, mimeType, options = {})`: a Success with the given body
and an options object spreading `options` over a `mimeType` entry. -/
def text (results : JsValue) (mimeType : String) (options : List (String × JsValue) := []) : JsValue :=
  yxpSuccess results 200 (.vObj (options ++ [("mimeType", .vStr mimeType)]))

/-- `html(results, options = {})`. -/
def html (results : JsValue) (options : List (String × JsValue) := []) : JsValue :=
  text results "text/html" options

/-- `json(results, options = {})` stringifies the value and declares the
JSON MIME type. -/
def json (results : JsValue) (options : List (String × JsValue) := []) : JsValue :=
  text (jsonStringify results) "application/json" options

/-- `isYxpResults`: classification of an arbitrary value as a structured
Result, decided solely by its `type` field (read with lodash `get`) being
the string YxpSuccess or YxpError. -/
def isYxpResults (v : JsValue) : Bool :=
  match jsGet v "type" with
  | .vStr s => if s = "YxpSuccess" then true else if s = "YxpError" then true else false
  | _ => false

/-- `isYxpSuccess`: the `type` field is the string YxpSuccess. -/
def isYxpSuccess (v : JsValue) : Bool :=
  match jsGet v "type" with
  | .vStr s => if s = "YxpSuccess" then true else false
  | _ => false

/-- One operation performed on the express response object, in order. -/
inductive ResOp where
  | cookie (name : String) (value : JsValue)
  | header (name : String) (value : JsValue)
  | status (code : JsValue)
  | send (body : JsValue)

def ResOp.isCookie : ResOp → Bool
  | .cookie _ _ => true
  | _ => false

def ResOp.isHeader : ResOp → Bool
  | .header _ _ => true
  | _ => false

/-- The `res.cookie` calls of `forOwn(results.options.cookies || {}, ...)`. -/
def cookieOpsOf (cs : JsValue) : List ResOp :=
  (objEntries (jsOr cs (.vObj []))).map fun p => ResOp.cookie p.1 p.2

/-- The `res.header` calls of `forOwn(results.options.headers || {}, ...)`. -/
def headerOpsOf (hs : JsValue) : List ResOp :=
  (objEntries (jsOr hs (.vObj []))).map fun p => ResOp.header p.1 p.2

/-- `sendResults(res, results)`: for a Success, write the cookies then the
headers, then in every case write the status code and then the body.
Property accesses are plain, so a Success whose `options` is undefined
throws a TypeError at `results.options.cookies`. -/
def sendResults (v : JsValue) : Except String (List ResOp) :=
  if isYxpSuccess v then
    match jsAccess v "options" with
    | .error m => .error m
    | .ok opts =>
      match jsAccess opts "cookies" with
      | .error m => .error m
      | .ok cs =>
        match jsAccess opts "headers" with
        | .error m => .error m
        | .ok hs =>
          match jsAccess v "statusCode", jsAccess v "body" with
          | .ok sc, .ok b => .ok (cookieOpsOf cs ++ headerOpsOf hs ++ [.status sc, .send b])
          | .error m, _ => .error m
          | _, .error m => .error m
  else
    match jsAccess v "statusCode", jsAccess v "body" with
    | .ok sc, .ok b => .ok [.status sc, .send b]
    | .error m, _ => .error m
    | _, .error m => .error m

/-- Modelled from the spec: a Shape is an externally supplied validation
capability, `validate(raw)` yielding a typed value or failing with a
message, and `cast(raw, \x7bstrict, stripUnknown\x7d)` used only for output
encoding. The yup library itself is not part of the repository. -/
structure Schema where
  validate : JsValue → Except String JsValue
  cast : JsValue → JsValue

/-- Modelled from the spec: `cast` with stripUnknown drops the fields of an
object that are not declared in the shape; casting undefined yields the
schema default, which is undefined when no declared field has a default. -/
def castStrip (declared : List String) (v : JsValue) : JsValue :=
  match v with
  | .vObj fs => .vObj (fs.filter fun p => declared.contains p.1)
  | .vUndefined => .vUndefined
  | w => w

/-- Modelled from the spec: `validate` fails on type mismatch or when a
declared required field is missing, and otherwise returns the value. -/
def objectSchema (declared : List String) : Schema where
  validate := fun v =>
    match v with
    | .vObj fs =>
      if declared.all fun k => (assocLookup fs k).isSome then .ok (.vObj fs)
      else .error "required field is missing"
    | _ => .error "value is not an object"
  cast := castStrip declared

/-- `BlankReturn = yup.object(\x7b\x7d)`, the default output formatter. -/
def BlankReturn : Schema :=
  objectSchema []

/-- `sendUnknownResponse(res, results, formatter)`: a structured Result is
sent as is; any other value is cast through the formatter with strict and
stripUnknown and sent as a JSON Success. -/
def sendUnknownResponse (results : JsValue) (formatter : Schema) : Except String (List ResOp) :=
  sendResults (if isYxpResults results then results else json (formatter.cast results))

/-- The raw inputs of one request. -/
structure Request where
  params : JsValue
  query : JsValue
  body : JsValue

/-- The optional per-category schemata of an endpoint declaration. -/
structure Schemata where
  params : Option Schema := none
  query : Option Schema := none
  body : Option Schema := none

/-- `schemata.params?.validate(req.params)`: an absent schema gives
undefined (no validation); a present one validates. -/
def validateCat : Option Schema → JsValue → Except String JsValue
  | none, _ => .ok .vUndefined
  | some s, raw => s.validate raw

/-- `x || \x7b\x7d` applied to a validation result. -/
def orBlank (v : JsValue) : JsValue :=
  jsOr v (.vObj [])

/-- Continuation step of `getSchemataArgs`: a validation failure is caught
and turned into `paramError(e.message)`; a success continues with the
value defaulted by `|| \x7b\x7d`. -/
def handleCat (r : Except String JsValue) (k : JsValue → JsValue) : JsValue :=
  match r with
  | .error m => paramError m
  | .ok v => k (orBlank v)

/-- `getSchemataArgs(req, schemata)`: validate params, then query, then
body; the first failure short-circuits the rest and yields a 400 Error. -/
def getSchemataArgs (schemata : Schemata) (req : Request) : JsValue :=
  handleCat (validateCat schemata.params req.params) fun p =>
    handleCat (validateCat schemata.query req.query) fun q =>
      handleCat (validateCat schemata.body req.body) fun b =>
        .vObj [("params", p), ("query", q), ("body", b)]

/-- The observable outcome of one handler run: a returned value or a
thrown value. -/
inductive HandlerOutcome where
  | ret (v : JsValue)
  | thrown (v : JsValue)

/-- Lift the TypeError channel of `sendResults` into the uncaught-value
channel of the endpoint (a TypeError is a string-modelled fault). -/
def liftFault {α : Type} : Except String α → Except JsValue α
  | .ok a => .ok a
  | .error m => .error (.vStr m)

/-- The request handler produced by `Yupress.endpoint`: validate the
inputs, short-circuit a validation Error, run the action, send a returned
value through `sendUnknownResponse`, and catch a thrown value only when it
is a structured Result, rethrowing anything else. The `Except` error
channel carries the values that propagate uncaught to the caller. -/
def runEndpoint (schemata : Schemata) (formatter : Schema)
    (action : JsValue → HandlerOutcome) (req : Request) : Except JsValue (List ResOp) :=
  if isYxpResults (getSchemataArgs schemata req) then
    liftFault (sendResults (getSchemataArgs schemata req))
  else
    match action (getSchemataArgs schemata req) with
    | .ret v =>
      match sendUnknownResponse v formatter with
      | .ok ops => .ok ops
      | .error m =>
        if isYxpResults (.vStr m) then liftFault (sendResults (.vStr m)) else .error (.vStr m)
    | .thrown v =>
      if isYxpResults v then liftFault (sendResults v) else .error v

example : isYxpResults (paramError "x") = true := rfl

example : sendResults (paramError "bad") = .ok [.status (.vNum 400), .send (.vStr "bad")] := rfl

example : sendResults (json (.vObj [("id", .vNum 1)])) =
    .ok [.status (.vNum 200), .send (.vStr "\x7b\"id\":1\x7d")] := rfl

example : sendResults (.vObj [("type", .vStr "YxpSuccess"), ("statusCode", .vNum 200), ("body", .vStr "x")]) =
    .error "TypeError: cannot read cookies" := rfl

/-!
The service container. `addServices` installs, for each declared service
name, a property getter `memoize(() => factory(httpArgs))`: reading the
property computes the factory on first read and caches the result for the
rest of the request. The dynamic getter is embedded as an explicit
get-or-compute state machine over the sequence of property reads the
handler performs. A factory is modelled as a function of its invocation
index so that recomputation would be observable.
-/

/-- Number of occurrences of a name in an invocation log. -/
def occurrences : List String → String → Nat
  | [], _ => 0
  | x :: xs, s => (if x = s then 1 else 0) + occurrences xs s

/-- The per-request state of the lazy service container: the memoization
cache, the log of factory invocations in order, and the values every
property read returned (none for a name with no declared factory). -/
structure SvcState where
  cache : List (String × JsValue)
  log : List String
  outputs : List (String × Option JsValue)

/-- One property read: a cache hit returns the cached value; a cache miss
on a declared service invokes its factory, caches and returns the result;
a name with no declared factory reads as undefined. -/
def readService (factories : List (String × (Nat → JsValue))) (st : SvcState) (name : String) : SvcState :=
  match assocLookup st.cache name with
  | some v => { st with outputs := st.outputs ++ [(name, some v)] }
  | none =>
    match assocLookup factories name with
    | some f =>
      let v := f (occurrences st.log name)
      { cache := (name, v) :: st.cache
        log := st.log ++ [name]
        outputs := st.outputs ++ [(name, some v)] }
    | none => { st with outputs := st.outputs ++ [(name, none)] }

def runReadsAux (factories : List (String × (Nat → JsValue))) : List String → SvcState → SvcState
  | [], st => st
  | r :: rest, st => runReadsAux factories rest (readService factories st r)

/-- The container state after a handler performed the given sequence of
service-property reads within one request. -/
def runReads (factories : List (String × (Nat → JsValue))) (reads : List String) : SvcState :=
  runReadsAux factories reads ⟨[], [], []⟩

/-- Reachability invariant of the container state: an undeclared name is
never cached nor logged; a declared one is either untouched or cached with
its first-invocation value and logged exactly once. -/
def SvcInv (factories : List (String × (Nat → JsValue))) (st : SvcState) : Prop :=
  ∀ name : String,
    (assocLookup factories name = none →
      assocLookup st.cache name = none ∧ occurrences st.log name = 0) ∧
    (∀ f : Nat → JsValue, assocLookup factories name = some f →
      (assocLookup st.cache name = none ∧ occurrences st.log name = 0) ∨
      (assocLookup st.cache name = some (f 0) ∧ occurrences st.log name = 1))

theorem occurrences_append (l₁ l₂ : List String) (s : String) :
    occurrences (l₁ ++ l₂) s = occurrences l₁ s + occurrences l₂ s := by
  induction l₁ with
  | nil => simp [occurrences]
  | cons x xs ih => simp [occurrences, ih]; omega

theorem assocLookup_cons {α : Type} (k : String) (v : α) (rest : List (String × α)) (s : String) :
    assocLookup ((k, v) :: rest) s = if k = s then some v else assocLookup rest s := rfl

theorem readService_inv (factories : List (String × (Nat → JsValue))) (st : SvcState) (r : String)
    (h : SvcInv factories st) : SvcInv factories (readService factories st r) := by
  intro name
  rcases hc : assocLookup st.cache r with _ | v
  · rcases hf : assocLookup factories r with _ | f
    · simpa [readService, hc, hf] using h name
    · by_cases hn : name = r
      · subst hn
        refine ⟨?_, ?_⟩
        · intro hg; rw [hg] at hf; cases hf
        · intro g hg
          rw [hf] at hg
          cases hg
          rcases (h name).2 f hf with ⟨_, hl⟩ | ⟨hcac, _⟩
          · right
            refine ⟨?_, ?_⟩
            · simp [readService, hc, hf, assocLookup_cons, hl]
            · simp [readService, hc, hf, occurrences_append, occurrences, hl]
          · rw [hcac] at hc; cases hc
      · refine ⟨?_, ?_⟩
        · intro hg
          have hi := (h name).1 hg
          refine ⟨?_, ?_⟩
          · simp [readService, hc, hf, assocLookup_cons, Ne.symm hn, hi.1]
          · simp [readService, hc, hf, occurrences_append, occurrences, Ne.symm hn, hi.2]
        · intro g hg
          rcases (h name).2 g hg with ⟨h1, h2⟩ | ⟨h1, h2⟩
          · left
            refine ⟨?_, ?_⟩
            · simp [readService, hc, hf, assocLookup_cons, Ne.symm hn, h1]
            · simp [readService, hc, hf, occurrences_append, occurrences, Ne.symm hn, h2]
          · right
            refine ⟨?_, ?_⟩
            · simp [readService, hc, hf, assocLookup_cons, Ne.symm hn, h1]
            · simp [readService, hc, hf, occurrences_append, occurrences, Ne.symm hn, h2]
  · have hcac : (readService factories st r).cache = st.cache := by
      simp [readService, hc]
    have hlog : (readService factories st r).log = st.log := by
      simp [readService, hc]
    rw [hcac, hlog]
    exact h name

theorem runReadsAux_inv (factories : List (String × (Nat → JsValue))) (reads : List String) :
    ∀ st : SvcState, SvcInv factories st → SvcInv factories (runReadsAux factories reads st) := by
  induction reads with
  | nil => intro st h; simpa [runReadsAux] using h
  | cons r rest ih =>
    intro st h
    simpa [runReadsAux] using ih (readService factories st r) (readService_inv factories st r h)

theorem svcInv_init (factories : List (String × (Nat → JsValue))) :
    SvcInv factories (⟨[], [], []⟩ : SvcState) := by
  intro name
  exact ⟨fun _ => ⟨rfl, rfl⟩, fun f _ => Or.inl ⟨rfl, rfl⟩⟩

theorem runReadsAux_cons (factories : List (String × (Nat → JsValue))) (r : String)
    (rest : List String) (st : SvcState) :
    runReadsAux factories (r :: rest) st = runReadsAux factories rest (readService factories st r) := rfl

theorem runReadsAux_count (factories : List (String × (Nat → JsValue))) (name : String) :
    ∀ (reads : List String) (st : SvcState), SvcInv factories st →
    occurrences (runReadsAux factories reads st).log name =
      if (assocLookup factories name).isSome ∧ (name ∈ reads ∨ occurrences st.log name = 1)
      then 1 else 0 := by
  intro reads
  induction reads with
  | nil =>
    intro st h
    simp only [runReadsAux, List.not_mem_nil, false_or]
    rcases hf : assocLookup factories name with _ | f
    · have h0 := (h name).1 hf
      simp [h0.2]
    · rcases (h name).2 f hf with ⟨_, h2⟩ | ⟨_, h2⟩ <;> simp [h2]
  | cons r rest ih =>
    intro st h
    have hrec := ih (readService factories st r) (readService_inv factories st r h)
    rw [runReadsAux_cons, hrec]
    by_cases hn : name = r
    · subst hn
      rcases hc : assocLookup st.cache name with _ | v
      · rcases hf : assocLookup factories name with _ | f
        · have hlog : (readService factories st name).log = st.log := by
            simp [readService, hc, hf]
          rw [hlog]
          simp [hf]
        · have h0 : occurrences st.log name = 0 := by
            rcases (h name).2 f hf with ⟨_, h2⟩ | ⟨hcac, _⟩
            · exact h2
            · rw [hcac] at hc; cases hc
          have hlog : (readService factories st name).log = st.log ++ [name] := by
            simp [readService, hc, hf]
          rw [hlog]
          simp [hf, occurrences_append, occurrences, h0]
      · have hf : ∃ f, assocLookup factories name = some f := by
          rcases hg : assocLookup factories name with _ | g
          · have := ((h name).1 hg).1
            rw [this] at hc; cases hc
          · exact ⟨g, rfl⟩
        rcases hf with ⟨f, hf⟩
        have h1 : occurrences st.log name = 1 := by
          rcases (h name).2 f hf with ⟨hcac, _⟩ | ⟨_, h2⟩
          · rw [hcac] at hc; cases hc
          · exact h2
        have hlog : (readService factories st name).log = st.log := by
          simp [readService, hc]
        rw [hlog]
        simp [hf, h1]
    · have hlog : occurrences (readService factories st r).log name = occurrences st.log name := by
        rcases hc : assocLookup st.cache r with _ | v
        · rcases hf : assocLookup factories r with _ | f
          · simp [readService, hc, hf]
          · simp [readService, hc, hf, occurrences_append, occurrences, Ne.symm hn]
        · simp [readService, hc]
      rw [hlog]
      have hmem : (name ∈ r :: rest) = (name ∈ rest) := by
        simp [List.mem_cons, hn]
      simp only [hmem]

/-- A recorded property read is good when the value it returned is the
first-invocation value of the declared factory of that name (or none for
an undeclared name). -/
def GoodOut (factories : List (String × (Nat → JsValue))) (o : String × Option JsValue) : Prop :=
  o.2 = (assocLookup factories o.1).map fun f => f 0

theorem runReadsAux_outputs (factories : List (String × (Nat → JsValue))) :
    ∀ (reads : List String) (st : SvcState), SvcInv factories st →
    (∀ o ∈ st.outputs, GoodOut factories o) →
    ∀ o ∈ (runReadsAux factories reads st).outputs, GoodOut factories o := by
  intro reads
  induction reads with
  | nil => intro st _ hout o ho; exact hout o ho
  | cons r rest ih =>
    intro st h hout o ho
    rw [runReadsAux_cons] at ho
    refine ih (readService factories st r) (readService_inv factories st r h) ?_ o ho
    intro o' ho'
    rcases hc : assocLookup st.cache r with _ | v
    · rcases hf : assocLookup factories r with _ | f
      · have : (readService factories st r).outputs = st.outputs ++ [(r, none)] := by
          simp [readService, hc, hf]
        rw [this] at ho'
        rcases List.mem_append.1 ho' with hin | hin
        · exact hout o' hin
        · rcases List.mem_singleton.1 hin with rfl
          simp [GoodOut, hf]
      · have h0 : occurrences st.log r = 0 := by
          rcases (h r).2 f hf with ⟨_, h2⟩ | ⟨hcac, _⟩
          · exact h2
          · rw [hcac] at hc; cases hc
        have : (readService factories st r).outputs = st.outputs ++ [(r, some (f (occurrences st.log r)))] := by
          simp [readService, hc, hf]
        rw [this, h0] at ho'
        rcases List.mem_append.1 ho' with hin | hin
        · exact hout o' hin
        · rcases List.mem_singleton.1 hin with rfl
          simp [GoodOut, hf]
    · have hf : ∃ f, assocLookup factories r = some f ∧ v = f 0 := by
        rcases hg : assocLookup factories r with _ | g
        · have := ((h r).1 hg).1
          rw [this] at hc; cases hc
        · rcases (h r).2 g hg with ⟨hcac, _⟩ | ⟨hcac, _⟩
          · rw [hcac] at hc; cases hc
          · rw [hcac] at hc
            injection hc with hv
            exact ⟨g, rfl, hv.symm⟩
      rcases hf with ⟨f, hf, rfl⟩
      have : (readService factories st r).outputs = st.outputs ++ [(r, some (f 0))] := by
        simp [readService, hc]
      rw [this] at ho'
      rcases List.mem_append.1 ho' with hin | hin
      · exact hout o' hin
      · rcases List.mem_singleton.1 hin with rfl
        simp [GoodOut, hf]

/-! Helper evaluation lemmas for the endpoint pipeline. -/

theorem handleCat_error (m : String) (k : JsValue → JsValue) :
    handleCat (.error m) k = paramError m := rfl

theorem handleCat_ok (v : JsValue) (k : JsValue → JsValue) :
    handleCat (.ok v) k = k (orBlank v) := rfl

theorem isYxpResults_paramError (m : String) : isYxpResults (paramError m) = true := rfl

theorem sendResults_paramError (m : String) :
    sendResults (paramError m) = .ok [.status (.vNum 400), .send (.vStr m)] := rfl

theorem isYxpResults_vStr (s : String) : isYxpResults (.vStr s) = false := rfl

theorem sendResults_json (r : JsValue) :
    sendResults (json r) = .ok [.status (.vNum 200), .send (jsonStringify r)] := rfl

theorem sendResults_text (b : JsValue) (m : String) :
    sendResults (text b m) = .ok [.status (.vNum 200), .send b] := rfl

theorem jsAccess_ok (v : JsValue) (k : String) (x : JsValue) (h : jsAccess v k = .ok x) :
    x = jsGet v k := by
  cases v <;> simp_all [jsAccess, jsGet]

theorem contains_true_mem (ds : List String) (k : String) (h : ds.contains k = true) : k ∈ ds := by
  simpa using h

/-- Evaluation of the happy path for a plain (non-Result) handler return
value: it is cast through the formatter, stringified and sent as a JSON
Success with status 200. -/
theorem runEndpoint_ret_plain (sch : Schemata) (req : Request) (fmt : Schema) (v : JsValue)
    (hok : isYxpResults (getSchemataArgs sch req) = false)
    (hplain : isYxpResults v = false) :
    runEndpoint sch fmt (fun _ => .ret v) req =
      .ok [.status (.vNum 200), .send (jsonStringify (fmt.cast v))] := by
  simp [runEndpoint, hok, sendUnknownResponse, hplain, sendResults_json]

/-- Concrete fixtures used by the witnesses. -/
def req0 : Request := ⟨.vObj [], .vObj [], .vObj []⟩

def sch0 : Schemata := ⟨none, none, none⟩

def sFail (msg : String) : Schema := ⟨fun _ => .error msg, fun v => v⟩

def sPass : Schema := ⟨fun v => .ok v, fun v => v⟩

def actionProbe : JsValue → HandlerOutcome := fun _ => .ret (.vObj [("x", .vNum 1)])

/-- C2: the three input categories are validated in the fixed order params,
query, body. The conclusion of each part holds for EVERY schema of the
later categories and for EVERY handler action, which expresses that the
first failing category short-circuits the remaining ones (their validators
are never consulted) and that the handler is never invoked; the response
is the single 400 Error whose body is the failure message. -/
theorem c2_validation_order_short_circuit :
    ∀ (req : Request) (fmt : Schema) (sp sq sb : Option Schema)
      (a : JsValue → HandlerOutcome) (m : String),
    (validateCat sp req.params = .error m →
      runEndpoint ⟨sp, sq, sb⟩ fmt a req = .ok [.status (.vNum 400), .send (.vStr m)]) ∧
    (∀ p : JsValue, validateCat sp req.params = .ok p →
      validateCat sq req.query = .error m →
      runEndpoint ⟨sp, sq, sb⟩ fmt a req = .ok [.status (.vNum 400), .send (.vStr m)]) ∧
    (∀ p q : JsValue, validateCat sp req.params = .ok p →
      validateCat sq req.query = .ok q →
      validateCat sb req.body = .error m →
      runEndpoint ⟨sp, sq, sb⟩ fmt a req = .ok [.status (.vNum 400), .send (.vStr m)]) := by
  intro req fmt sp sq sb a m
  refine ⟨?_, ?_, ?_⟩
  · intro h
    simp [runEndpoint, getSchemataArgs, h, handleCat_error,
      isYxpResults_paramError, sendResults_paramError, liftFault]
  · intro p hp hq
    simp [runEndpoint, getSchemataArgs, hp, hq, handleCat_error, handleCat_ok,
      isYxpResults_paramError, sendResults_paramError, liftFault]
  · intro p q hp hq hb
    simp [runEndpoint, getSchemataArgs, hp, hq, hb, handleCat_error, handleCat_ok,
      isYxpResults_paramError, sendResults_paramError, liftFault]

theorem c2_witness :
    runEndpoint ⟨some (sFail "no params"), some sPass, none⟩ BlankReturn actionProbe req0 =
      .ok [.status (.vNum 400), .send (.vStr "no params")] ∧
    runEndpoint ⟨some sPass, some (sFail "no query"), none⟩ BlankReturn actionProbe req0 =
      .ok [.status (.vNum 400), .send (.vStr "no query")] ∧
    runEndpoint ⟨some sPass, some sPass, some (sFail "no body")⟩ BlankReturn actionProbe req0 =
      .ok [.status (.vNum 400), .send (.vStr "no body")] :=
  ⟨(c2_validation_order_short_circuit req0 BlankReturn _ _ _ actionProbe "no params").1 rfl,
   (c2_validation_order_short_circuit req0 BlankReturn _ _ _ actionProbe "no query").2.1
     (.vObj []) rfl rfl,
   (c2_validation_order_short_circuit req0 BlankReturn _ _ _ actionProbe "no body").2.2
     (.vObj []) (.vObj []) rfl rfl rfl⟩

/-- C1: with a declared output shape, a plain (non-Result) object returned
by the handler is sent as the JSON encoding of the object restricted to
the declared fields, and every field of the encoded body is declared in
the shape: undeclared fields never reach the response. -/
theorem c1_output_shape_strips_undeclared :
    ∀ (sch : Schemata) (req : Request) (ds : List String) (fs : List (String × JsValue)),
    isYxpResults (getSchemataArgs sch req) = false →
    isYxpResults (.vObj fs) = false →
    runEndpoint sch (objectSchema ds) (fun _ => .ret (.vObj fs)) req =
      .ok [.status (.vNum 200),
           .send (jsonStringify (.vObj (fs.filter fun p => ds.contains p.1)))] ∧
    ∀ k ∈ objFields (castStrip ds (.vObj fs)), k ∈ ds := by
  intro sch req ds fs hok hplain
  constructor
  · simpa [objectSchema, castStrip] using
      runEndpoint_ret_plain sch req (objectSchema ds) (.vObj fs) hok hplain
  · intro k hk
    simp only [objFields, objEntries, castStrip, List.mem_map] at hk
    rcases hk with ⟨p, hp, rfl⟩
    exact contains_true_mem ds p.1 (List.mem_filter.1 hp).2

theorem c1_witness :
    runEndpoint sch0 (objectSchema ["id", "username"])
      (fun _ => .ret (.vObj [("id", .vNum 1), ("username", .vStr "michael"),
        ("password", .vStr "swordfish")])) req0 =
    .ok [.status (.vNum 200), .send (.vStr "\x7b\"id\":1,\"username\":\"michael\"\x7d")] :=
  (c1_output_shape_strips_undeclared sch0 req0 ["id", "username"]
    [("id", .vNum 1), ("username", .vStr "michael"), ("password", .vStr "swordfish")] rfl rfl).1

/-- C5 counterexample: with no declared output shape the formatter defaults
to the blank object schema, so a plain object return is NOT passed through
unmodified: every field is stripped and the body sent is the empty JSON
object, not the JSON encoding of the returned value. -/
theorem c5_counterexample :
    runEndpoint sch0 BlankReturn (fun _ => .ret (.vObj [("a", .vNum 1)])) req0 =
      .ok [.status (.vNum 200), .send (.vStr "\x7b\x7d")] ∧
    jsonStringify (.vObj [("a", .vNum 1)]) = .vStr "\x7b\"a\":1\x7d" ∧
    (.vStr "\x7b\x7d" : JsValue) ≠ .vStr "\x7b\"a\":1\x7d" :=
  ⟨rfl, rfl, fun h => absurd (JsValue.vStr.inj h) (by decide)⟩

/-- C5 amended: for every endpoint declared without an output shape, a
plain (non-Result) object returned by the handler is wrapped as a Success
whose body is the value cast through the default blank output shape with
unknown-field stripping, so every field is stripped and the body is the
empty JSON object. -/
theorem c5_amended_blank_shape_strips_all_fields :
    ∀ (sch : Schemata) (req : Request) (fs : List (String × JsValue)),
    isYxpResults (getSchemataArgs sch req) = false →
    isYxpResults (.vObj fs) = false →
    runEndpoint sch BlankReturn (fun _ => .ret (.vObj fs)) req =
      .ok [.status (.vNum 200), .send (.vStr "\x7b\x7d")] := by
  intro sch req fs hok hplain
  have h := runEndpoint_ret_plain sch req BlankReturn (.vObj fs) hok hplain
  have hcast : BlankReturn.cast (.vObj fs) = .vObj [] := by
    simp [BlankReturn, objectSchema, castStrip,
      show (fun p : String × JsValue => ([] : List String).contains p.1) = fun _ => false from rfl]
  rw [h, hcast]
  rfl

theorem c5_amended_witness :
    runEndpoint sch0 BlankReturn
      (fun _ => .ret (.vObj [("a", .vNum 1), ("password", .vStr "pw")])) req0 =
    .ok [.status (.vNum 200), .send (.vStr "\x7b\x7d")] :=
  c5_amended_blank_shape_strips_all_fields sch0 req0
    [("a", .vNum 1), ("password", .vStr "pw")] rfl rfl

/-- C8: an endpoint with no declared output shape whose handler returns
nothing sends a 200 Success whose body value is undefined, which express
transmits as the empty body. -/
theorem c8_void_return_empty_body :
    ∀ (sch : Schemata) (req : Request),
    isYxpResults (getSchemataArgs sch req) = false →
    runEndpoint sch BlankReturn (fun _ => .ret .vUndefined) req =
      .ok [.status (.vNum 200), .send .vUndefined] ∧
    renderBody .vUndefined = "" := by
  intro sch req hok
  exact ⟨runEndpoint_ret_plain sch req BlankReturn .vUndefined hok rfl, rfl⟩

theorem c8_witness :
    runEndpoint sch0 BlankReturn (fun _ => .ret .vUndefined) req0 =
      .ok [.status (.vNum 200), .send .vUndefined] :=
  (c8_void_return_empty_body sch0 req0 rfl).1

/-- C7: a handler returning a structured Success (here one built by `text`
with a custom MIME type) bypasses output-shape casting entirely: the body
is sent exactly as given, and the response does not depend on the declared
output formatter at all. -/
theorem c7_structured_success_bypasses_casting :
    ∀ (sch : Schemata) (req : Request) (fmt fmt2 : Schema) (b : JsValue) (m : String),
    isYxpResults (getSchemataArgs sch req) = false →
    runEndpoint sch fmt (fun _ => .ret (text b m)) req =
      .ok [.status (.vNum 200), .send b] ∧
    runEndpoint sch fmt (fun _ => .ret (text b m)) req =
      runEndpoint sch fmt2 (fun _ => .ret (text b m)) req := by
  intro sch req fmt fmt2 b m hok
  have key : ∀ fmtx : Schema, runEndpoint sch fmtx (fun _ => .ret (text b m)) req =
      .ok [.status (.vNum 200), .send b] := by
    intro fmtx
    simp [runEndpoint, hok, sendUnknownResponse,
      show isYxpResults (text b m) = true from rfl, sendResults_text]
  exact ⟨key fmt, (key fmt).trans (key fmt2).symm⟩

theorem c7_witness :
    runEndpoint sch0 (objectSchema ["id"])
      (fun _ => .ret (text (.vStr "a,b,c") "text/csv")) req0 =
      .ok [.status (.vNum 200), .send (.vStr "a,b,c")] ∧
    runEndpoint sch0 (objectSchema ["id"])
      (fun _ => .ret (text (.vStr "a,b,c") "text/csv")) req0 =
      runEndpoint sch0 BlankReturn (fun _ => .ret (text (.vStr "a,b,c") "text/csv")) req0 :=
  c7_structured_success_bypasses_casting sch0 req0 (objectSchema ["id"]) BlankReturn
    (.vStr "a,b,c") "text/csv" rfl

/-- C10 counterexample: a plain object whose `type` field is the string
YxpSuccess is classified as a structured Result, but it is NOT encoded
verbatim: because it has no `options` field, `results.options.cookies`
throws a TypeError that propagates, so no response is produced at all. -/
theorem c10_counterexample :
    isYxpResults (.vObj [("type", .vStr "YxpSuccess"), ("statusCode", .vNum 200),
      ("body", .vStr "x"), ("password", .vStr "pw")]) = true ∧
    sendUnknownResponse (.vObj [("type", .vStr "YxpSuccess"), ("statusCode", .vNum 200),
      ("body", .vStr "x"), ("password", .vStr "pw")]) (objectSchema ["id"]) =
      .error "TypeError: cannot read cookies" :=
  ⟨rfl, rfl⟩

/-- C10 amended: classification as a structured Result is decided solely by
the `type` field being the string YxpSuccess or YxpError; every value so
classified bypasses output-shape casting entirely. A `type` = YxpError
object is encoded verbatim from its own `statusCode` and `body` fields; a
`type` = YxpSuccess object is encoded verbatim only when its `options`
field is defined, otherwise reading `options.cookies` throws a TypeError
that propagates as an unstructured fault. -/
theorem c10_amended_type_field_classification :
    ∀ (v : JsValue) (fmt : Schema),
    (isYxpResults v = true → sendUnknownResponse v fmt = sendResults v) ∧
    (jsGet v "type" = .vStr "YxpError" →
      sendUnknownResponse v fmt =
        .ok [.status (jsGet v "statusCode"), .send (jsGet v "body")]) ∧
    (jsGet v "type" = .vStr "YxpSuccess" → jsGet v "options" = .vUndefined →
      sendUnknownResponse v fmt = .error ("TypeError: cannot read cookies")) := by
  intro v fmt
  refine ⟨?_, ?_, ?_⟩
  · intro h
    simp [sendUnknownResponse, h]
  · intro h
    cases v with
    | vObj fs =>
      have hres : isYxpResults (.vObj fs) = true := by simp [isYxpResults, h]
      have hsucc : isYxpSuccess (.vObj fs) = false := by simp [isYxpSuccess, h]
      simp [sendUnknownResponse, hres, sendResults, hsucc, jsAccess, jsGet]
    | vUndefined => simp [jsGet] at h
    | vNull => simp [jsGet] at h
    | vBool b => simp [jsGet] at h
    | vNum n => simp [jsGet] at h
    | vStr s => simp [jsGet] at h
  · intro h h2
    cases v with
    | vObj fs =>
      have hres : isYxpResults (.vObj fs) = true := by simp [isYxpResults, h]
      have hsucc : isYxpSuccess (.vObj fs) = true := by simp [isYxpSuccess, h]
      have hopt : (assocLookup fs "options").getD .vUndefined = .vUndefined := by
        simpa [jsGet] using h2
      simp [sendUnknownResponse, hres, sendResults, hsucc, jsAccess, hopt]
    | vUndefined => simp [jsGet] at h
    | vNull => simp [jsGet] at h
    | vBool b => simp [jsGet] at h
    | vNum n => simp [jsGet] at h
    | vStr s => simp [jsGet] at h

theorem c10_witness :
    sendUnknownResponse (.vObj [("type", .vStr "YxpError"), ("statusCode", .vNum 403),
      ("body", .vStr "denied"), ("extra", .vNum 7)]) BlankReturn =
      .ok [.status (.vNum 403), .send (.vStr "denied")] ∧
    sendUnknownResponse (.vObj [("type", .vStr "YxpSuccess"), ("statusCode", .vNum 201),
      ("body", .vStr "y")]) BlankReturn = .error "TypeError: cannot read cookies" :=
  ⟨(c10_amended_type_field_classification (.vObj [("type", .vStr "YxpError"),
      ("statusCode", .vNum 403), ("body", .vStr "denied"), ("extra", .vNum 7)])
      BlankReturn).2.1 rfl,
   (c10_amended_type_field_classification (.vObj [("type", .vStr "YxpSuccess"),
      ("statusCode", .vNum 201), ("body", .vStr "y")]) BlankReturn).2.2 rfl rfl⟩

/-- C4: a value thrown during handler execution (service factories run
inside the same try block, lazily, during the handler) is caught exactly
when it is a structured Result, in which case the response is the same as
if the handler had returned that Result; any other thrown value propagates
uncaught to the caller. -/
theorem c4_thrown_results_caught_faults_propagate :
    ∀ (sch : Schemata) (fmt : Schema) (req : Request) (v : JsValue),
    isYxpResults (getSchemataArgs sch req) = false →
    (isYxpResults v = true →
      runEndpoint sch fmt (fun _ => .thrown v) req = liftFault (sendResults v) ∧
      runEndpoint sch fmt (fun _ => .thrown v) req =
        runEndpoint sch fmt (fun _ => .ret v) req) ∧
    (isYxpResults v = false →
      runEndpoint sch fmt (fun _ => .thrown v) req = .error v) := by
  intro sch fmt req v hok
  constructor
  · intro hv
    have ht : runEndpoint sch fmt (fun _ => .thrown v) req = liftFault (sendResults v) := by
      simp [runEndpoint, hok, hv]
    refine ⟨ht, ?_⟩
    rw [ht]
    rcases hs : sendResults v with m | ops
    · simp [runEndpoint, hok, sendUnknownResponse, hv, hs, liftFault, isYxpResults_vStr]
    · simp [runEndpoint, hok, sendUnknownResponse, hv, hs, liftFault]
  · intro hv
    simp [runEndpoint, hok, hv]

theorem c4_witness :
    (runEndpoint sch0 BlankReturn (fun _ => .thrown (yxpError 401 "unauthorized")) req0 =
       liftFault (sendResults (yxpError 401 "unauthorized")) ∧
     runEndpoint sch0 BlankReturn (fun _ => .thrown (yxpError 401 "unauthorized")) req0 =
       runEndpoint sch0 BlankReturn (fun _ => .ret (yxpError 401 "unauthorized")) req0) ∧
    runEndpoint sch0 BlankReturn (fun _ => .thrown (.vStr "boom")) req0 =
      .error (.vStr "boom") :=
  ⟨(c4_thrown_results_caught_faults_propagate sch0 BlankReturn req0
      (yxpError 401 "unauthorized") rfl).1 rfl,
   (c4_thrown_results_caught_faults_propagate sch0 BlankReturn req0
      (.vStr "boom") rfl).2 rfl⟩

/-- C6: evaluating `sendResults` at Successes that declare a custom or JSON
MIME type shows that no operation applying the declared MIME type is ever
performed on the response: `sendResults` reads only `options.cookies` and
`options.headers`, never `options.mimeType`, so the response consists of
the status write and the body write alone. -/
theorem c6_mime_type_never_applied :
    sendResults (text (.vStr "x") "text/csv") =
      .ok [.status (.vNum 200), .send (.vStr "x")] ∧
    sendResults (json (.vObj [("a", .vNum 1)])) =
      .ok [.status (.vNum 200), .send (.vStr "\x7b\"a\":1\x7d")] :=
  ⟨rfl, rfl⟩

/-- C9 counterexample: at a Success declaring one cookie, the first
operation performed on the response is the cookie write, not the status
write, so the claim that the status code is written first is false. -/
theorem c9_counterexample :
    sendResults (yxpSuccess (.vStr "x") 200
        (.vObj [("cookies", .vObj [("sid", .vStr "1")])])) =
      .ok [.cookie "sid" (.vStr "1"), .status (.vNum 200), .send (.vStr "x")] ∧
    ¬ ∃ (c : JsValue) (rest : List ResOp),
        sendResults (yxpSuccess (.vStr "x") 200
          (.vObj [("cookies", .vObj [("sid", .vStr "1")])])) =
        .ok (ResOp.status c :: rest) := by
  refine ⟨rfl, ?_⟩
  rintro ⟨c, rest, h⟩
  rw [show sendResults (yxpSuccess (.vStr "x") 200
      (.vObj [("cookies", .vObj [("sid", .vStr "1")])])) =
    .ok [.cookie "sid" (.vStr "1"), .status (.vNum 200), .send (.vStr "x")] from rfl] at h
  simp at h

/-- C9 amended: when a Result is sent, the cookie writes come first, then
the header writes, then the status code is written, and the body write is
last; an Error performs only the status and body writes. The response
trace ends at the body write. -/
theorem c9_amended_cookies_headers_status_body :
    ∀ (v : JsValue) (ops : List ResOp), sendResults v = .ok ops →
    (isYxpSuccess v = false →
      ops = [.status (jsGet v "statusCode"), .send (jsGet v "body")]) ∧
    (isYxpSuccess v = true →
      ∃ cs hs : List ResOp,
        ops = cs ++ hs ++ [.status (jsGet v "statusCode"), .send (jsGet v "body")] ∧
        (∀ op ∈ cs, op.isCookie = true) ∧ (∀ op ∈ hs, op.isHeader = true)) := by
  intro v ops h
  constructor
  · intro hsu
    unfold sendResults at h
    simp only [hsu, Bool.false_eq_true, if_false] at h
    rcases ha : jsAccess v "statusCode" with m | sc
    · simp [ha] at h
    · simp only [ha] at h
      rcases hb : jsAccess v "body" with m | b
      · simp [hb] at h
      · simp only [hb] at h
        have h2 := Except.ok.inj h
        rw [← h2, jsAccess_ok v "statusCode" sc ha, jsAccess_ok v "body" b hb]
  · intro hsu
    unfold sendResults at h
    simp only [hsu, if_true] at h
    rcases ho : jsAccess v "options" with m | opts
    · simp [ho] at h
    · simp only [ho] at h
      rcases hcs : jsAccess opts "cookies" with m | cs
      · simp [hcs] at h
      · simp only [hcs] at h
        rcases hhs : jsAccess opts "headers" with m | hs
        · simp [hhs] at h
        · simp only [hhs] at h
          rcases ha : jsAccess v "statusCode" with m | sc
          · simp [ha] at h
          · simp only [ha] at h
            rcases hb : jsAccess v "body" with m | b
            · simp [hb] at h
            · simp only [hb] at h
              have h2 := Except.ok.inj h
              refine ⟨cookieOpsOf cs, headerOpsOf hs, ?_, ?_, ?_⟩
              · rw [← h2, jsAccess_ok v "statusCode" sc ha, jsAccess_ok v "body" b hb]
              · intro op hop
                rcases List.mem_map.1 hop with ⟨p, _, rfl⟩
                rfl
              · intro op hop
                rcases List.mem_map.1 hop with ⟨p, _, rfl⟩
                rfl

theorem c9_witness :
    (∃ cs hs : List ResOp,
      [ResOp.cookie "sid" (.vStr "1"), ResOp.status (.vNum 200), ResOp.send (.vStr "x")] =
        cs ++ hs ++ [ResOp.status (jsGet (yxpSuccess (.vStr "x") 200
          (.vObj [("cookies", .vObj [("sid", .vStr "1")])])) "statusCode"),
          ResOp.send (jsGet (yxpSuccess (.vStr "x") 200
          (.vObj [("cookies", .vObj [("sid", .vStr "1")])])) "body")] ∧
        (∀ op ∈ cs, op.isCookie = true) ∧ (∀ op ∈ hs, op.isHeader = true)) ∧
    [ResOp.status (.vNum 400), ResOp.send (.vStr "bad")] =
      [ResOp.status (jsGet (paramError "bad") "statusCode"),
       ResOp.send (jsGet (paramError "bad") "body")] :=
  ⟨(c9_amended_cookies_headers_status_body (yxpSuccess (.vStr "x") 200
      (.vObj [("cookies", .vObj [("sid", .vStr "1")])])) _ rfl).2 rfl,
   (c9_amended_cookies_headers_status_body (paramError "bad") _ rfl).1 rfl⟩

/-- C3: within one request, a declared service factory is invoked zero
times when the handler never reads that property, exactly once when it
reads it one or more times, and every read of the property returns the
value of the first (and only) factory invocation: the cache entry is never
recomputed. -/
theorem c3_services_lazy_memoized :
    ∀ (factories : List (String × (Nat → JsValue))) (reads : List String) (name : String),
    (name ∉ reads → occurrences (runReads factories reads).log name = 0) ∧
    ((assocLookup factories name).isSome = true → name ∈ reads →
      occurrences (runReads factories reads).log name = 1) ∧
    (∀ o ∈ (runReads factories reads).outputs, o.1 = name →
      o.2 = (assocLookup factories name).map fun f => f 0) := by
  intro factories reads name
  have hcount := runReadsAux_count factories name reads ⟨[], [], []⟩ (svcInv_init factories)
  refine ⟨?_, ?_, ?_⟩
  · intro hmem
    rw [runReads, hcount]
    simp [hmem, occurrences]
  · intro hsome hmem
    rw [runReads, hcount]
    simp [hsome, hmem]
  · intro o ho h1
    have hgood := runReadsAux_outputs factories reads ⟨[], [], []⟩ (svcInv_init factories)
      (by intro o' ho'; cases ho') o ho
    rw [GoodOut] at hgood
    rw [h1] at hgood
    exact hgood

def factories0 : List (String × (Nat → JsValue)) :=
  [("used", fun _ => .vNum 5), ("unused", fun n => .vNum (Int.ofNat n))]

def reads0 : List String := ["used", "used", "nosuch"]

theorem c3_witness :
    occurrences (runReads factories0 reads0).log "unused" = 0 ∧
    occurrences (runReads factories0 reads0).log "used" = 1 ∧
    (("used", some (JsValue.vNum 5)) : String × Option JsValue).2 =
      (assocLookup factories0 "used").map fun f => f 0 :=
  ⟨(c3_services_lazy_memoized factories0 reads0 "unused").1 (by decide),
   (c3_services_lazy_memoized factories0 reads0 "used").2.1 rfl (by decide),
   (c3_services_lazy_memoized factories0 reads0 "used").2.2 ("used", some (.vNum 5))
     (by rw [show (runReads factories0 reads0).outputs =
         [("used", some (JsValue.vNum 5)), ("used", some (JsValue.vNum 5)),
          ("nosuch", none)] from rfl]
         exact List.mem_cons_self _ _) rfl⟩
